import Mathlib

/-!
# mob: the `sip` task and the `cmake` tool

A shallow embedding of `src/tasks/sip.cpp` and `src/tools/cmake.cpp`.

* `fs::path` is a sequence of components; `operator/` appends one component.
  Every right-hand side of `/` in the two files is a relative name, so the
  "absolute right-hand side replaces the left" rule of `std::filesystem` is
  never exercised.
* `bail_out` is `Except.error` carrying the formatted message.
* Functions that act on the outside world (`cx().trace`, `op::…`, `run_tool`)
  return the ordered log of the operations they issue, along the path on which
  each helper returns; a helper that fails bails out and ends the task there.
* What `fs::exists` answers, and what the configuration holds, is passed in.
-/

namespace mob

/-! ## Paths -/

/-- The type `fs::path`: the components of a path, outermost first. -/
structure Path where
  parts : List String
deriving DecidableEq, Repr

/-- The method `fs::path::empty()`. -/
def Path.empty (p : Path) : Bool := p.parts.isEmpty

/-- The operator `fs::path::operator/` with a relative right-hand side. -/
def Path.join (p : Path) (s : String) : Path := ⟨p.parts ++ [s]⟩

instance : HDiv Path String Path := ⟨Path.join⟩

/-! ## `std::regex` (ECMAScript grammar), the fragment used by `sip.cpp` -/

/-- Abstract syntax of the regular expressions used in the source. -/
inductive Regex where
  /-- An escaped literal character, such as `\.`. -/
  | lit (c : Char)
  /-- The class `\d`. -/
  | digit
  /-- Concatenation. -/
  | seq (a b : Regex)
  /-- Greedy `r+`. -/
  | plus (r : Regex)
  /-- Greedy `r?`. -/
  | opt (r : Regex)
  /-- Capturing group `( r )` with its number. -/
  | group (i : Nat) (r : Regex)
  /-- Non-capturing group `(?: r )`. -/
  | ncgroup (r : Regex)

/-- Sub-match table of a `std::smatch`: group number to matched text. -/
abbrev Captures := Nat → Option (List Char)

/-- One way a regular expression can match a prefix of the input. -/
@[ext]
structure Match where
  /-- The text consumed. -/
  text : List Char
  /-- The sub-matches recorded so far. -/
  caps : Captures
  /-- The input left over. -/
  rest : List Char

/-- Record sub-match `i`. -/
def Captures.set (caps : Captures) (i : Nat) (m : List Char) : Captures :=
  fun j => if j = i then some m else caps j

/-- Greedy iteration `r+`: `step` is one round of `r`; after each round try
another one first (only if the round consumed input), then stop. `fuel`
bounds the number of rounds. -/
def plusLoop (step : Captures → List Char → List Match) :
    Nat → Captures → List Char → List Match
  | 0, _, _ => []
  | fuel + 1, caps, s =>
    (step caps s).flatMap fun m =>
      (if m.text = [] then []
       else (plusLoop step fuel m.caps m.rest).map
              fun m' => { m' with text := m.text ++ m'.text })
      ++ [m]

/-- Backtracking matcher: all the ways `r` matches a prefix of `s`, in the
priority order of the ECMAScript semantics (greedy alternatives first). The
sub-matches of groups inside a repeated expression are not reset between
rounds; the pattern of `sip.cpp` has no group inside a repetition. -/
def Regex.run : Regex → Captures → List Char → List Match
  | .lit c, caps, s =>
    match s with
    | x :: xs => if x = c then [⟨[x], caps, xs⟩] else []
    | [] => []
  | .digit, caps, s =>
    match s with
    | x :: xs => if x.isDigit then [⟨[x], caps, xs⟩] else []
    | [] => []
  | .seq a b, caps, s =>
    (a.run caps s).flatMap fun m =>
      (b.run m.caps m.rest).map fun m' => { m' with text := m.text ++ m'.text }
  | .plus r, caps, s => plusLoop r.run (s.length + 1) caps s
  | .opt r, caps, s => r.run caps s ++ [⟨[], caps, s⟩]
  | .group i r, caps, s =>
    (r.run caps s).map fun m => { m with caps := m.caps.set i m.text }
  | .ncgroup r, caps, s => r.run caps s

/-- The function `std::regex_match`: the first match, in priority order, that
consumes the whole input; its sub-match table is returned. -/
def regex_match (s : String) (re : Regex) : Option Captures :=
  ((re.run (fun _ => none) s.data).find? fun m => m.rest.isEmpty).map
    fun m => m.caps.set 0 m.text

/-- The method `sub_match::str()`: empty when the group did not take part. -/
def Captures.str (m : Captures) (i : Nat) : String := ⟨(m i).getD []⟩

/-- The function `std::string::find` from position `i`: the first index at
which `needle` occurs, `none` for `npos`. -/
def string_find (needle : List Char) : List Char → Nat → Option Nat
  | [], i => if needle.isPrefixOf [] then some i else none
  | c :: cs, i =>
    if needle.isPrefixOf (c :: cs) then some i else string_find needle cs (i + 1)

/-! ## Context, operations and processes (declared outside the two files) -/

/-- The reasons `context::reason` named in the two files. -/
inductive reason where
  | generic | bypass | redownload | rebuild | reextract
deriving DecidableEq, Repr

/-- Modelled from the spec: the enum `context::level` is declared outside the
two files. The spec speaks of severities, of which the files name `trace`; the
other severities are told apart by a tag. -/
inductive level where
  | trace
  | other (tag : Nat)
deriving DecidableEq, Repr

/-- The enum `encodings`, as far as the two files name it. -/
inductive encodings where
  | utf8 | acp
deriving DecidableEq, Repr

/-- The enum `arch`, with the values the `switch` statements of `cmake.cpp`
name. -/
inductive arch where
  | x86 | x64 | dont_care
deriving DecidableEq, Repr

/-- The flags of `process::arg`. -/
inductive arg_flags where
  | noflags | log_quiet | nospace
deriving DecidableEq, Repr

/-- The value of a two-part argument: a string or a path. -/
inductive arg_value where
  | str (s : String)
  | path (p : Path)
deriving DecidableEq, Repr

/-- One call of `process::arg`. -/
structure Arg where
  name : String
  value : Option arg_value
  flags : arg_flags
deriving DecidableEq, Repr

/-- Where an environment starts from: `this_env::get()` or `env::vs(arch)`. -/
inductive env_base where
  | this_env
  | vs (a : arch)
deriving DecidableEq, Repr

/-- The class `env`: a base environment and the variables set on top. -/
structure env where
  base : env_base
  vars : List (String × String)
deriving DecidableEq, Repr

/-- The method `env::set`. -/
def env.set (e : env) (k v : String) : env := { e with vars := e.vars ++ [(k, v)] }

/-- Modelled from the spec: the record `process::filter` is declared outside
the two files. The spec hands a line filter a text and a severity; `line` and
`lv` are the members the lambda in `sip::generate` names. `ignore` is a drop
flag, kept so that "the line is never dropped" can be stated. -/
structure filter where
  line : String
  lv : level
  ignore : Bool
deriving DecidableEq, Repr

/-- Modelled from the spec: the class `process` is declared outside the two
files. It is the spec's command invocation: binary, ordered arguments, working
directory, environment, code page, stream encodings and line filter, each set
by the chained call of the same name. -/
structure process where
  binary : Path
  chcp : Option Nat
  stdout_encoding : Option encodings
  stderr_encoding : Option encodings
  stderr_filter : Option (filter → filter)
  args : List Arg
  env : Option env
  cwd : Path

/-- A fresh `process()`. -/
def process.new : process := ⟨⟨[]⟩, none, none, none, none, [], none, ⟨[]⟩⟩

/-- The call `process::arg(x)`. -/
def process.arg (p : process) (x : String) : process :=
  { p with args := p.args ++ [⟨x, none, .noflags⟩] }

/-- The call `process::arg(x, flags)`. -/
def process.arg_f (p : process) (x : String) (f : arg_flags) : process :=
  { p with args := p.args ++ [⟨x, none, f⟩] }

/-- The call `process::arg(name, value)`. -/
def process.arg2 (p : process) (k : String) (v : arg_value) : process :=
  { p with args := p.args ++ [⟨k, some v, .noflags⟩] }

/-- The call `process::arg(name, value, flags)`. -/
def process.arg2_f (p : process) (k : String) (v : arg_value) (f : arg_flags) : process :=
  { p with args := p.args ++ [⟨k, some v, f⟩] }

/-- The flags of the `op::` file operations. -/
inductive op_flags where
  | noflags | optional
deriving DecidableEq, Repr

/-- One operation issued on the outside world. -/
inductive Event where
  /-- The call `cx().trace(reason, format, path…)`. -/
  | trace (r : reason) (format : String) (args : List Path)
  /-- The call `op::delete_file`. -/
  | delete_file (p : Path) (f : op_flags)
  /-- The call `op::delete_directory`. -/
  | delete_directory (p : Path) (f : op_flags)
  /-- The call `run_tool(process_runner(p))`: a process is launched. -/
  | run_tool (p : process)
  /-- The call `op::read_text_file`. -/
  | read_text_file (e : encodings) (p : Path)
  /-- The call `op::write_text_file`. -/
  | write_text_file (e : encodings) (p : Path) (text : String)
  /-- The call `op::swap_files`. -/
  | swap_files (src dest backup : Path)

/-- Whether the event launches a process. -/
def Event.isRunTool : Event → Bool
  | .run_tool _ => true
  | _ => false

/-- Whether the event deletes a file or a directory. -/
def Event.isDelete : Event → Bool
  | .delete_file _ _ => true
  | .delete_directory _ _ => true
  | _ => false

/-- Whether the event is a trace with reason `context::bypass`. -/
def Event.isBypass : Event → Bool
  | .trace .bypass _ _ => true
  | _ => false

/-- The directories an event log deletes, with the mode of each delete. -/
def deleted_directories : List Event → List (Path × op_flags)
  | [] => []
  | .delete_directory p f :: es => (p, f) :: deleted_directories es
  | _ :: es => deleted_directories es

/-- Modelled from the spec: the enum `clean` is declared outside the two files.
These are the two requests `sip::do_clean` tests for, the spec's "re-extract"
and "rebuild". -/
inductive clean_flag where
  | reextract | rebuild
deriving DecidableEq, Repr

/-- Modelled from the spec: a clean request is a set of flags, so that
re-extract can be asked for with or without rebuild. -/
structure clean where
  has : clean_flag → Bool

/-- Modelled from the spec: the function `is_set`, whether the request holds the
flag. -/
def is_set (c : clean) (f : clean_flag) : Bool := c.has f

/-! ## `sip.cpp` -/

/-- The configuration and path helpers `sip.cpp` reads (`conf::…`,
`paths::…`, `python::…`), which live outside the two files. -/
structure Conf where
  /-- The value `conf::version_by_name("sip")`. -/
  sip_version : String
  /-- The value `conf::version_by_name("pyqt_sip")`. -/
  pyqt_sip_version : String
  /-- The value `paths::build()`. -/
  build : Path
  /-- The value `paths::cache()`. -/
  cache : Path
  /-- The value `python::python_exe()`. -/
  python_exe : Path
  /-- The value `python::scripts_path()`. -/
  scripts_path : Path
  /-- The value `python::include_path()`. -/
  include_path : Path
  /-- The value `conf::redownload()`. -/
  redownload : Bool
  /-- The value `conf::rebuild()`. -/
  rebuild : Bool

namespace sip

/-- The function `sip::version`. -/
def version (cf : Conf) : String := cf.sip_version

/-- The function `sip::version_for_pyqt`. -/
def version_for_pyqt (cf : Conf) : String := cf.pyqt_sip_version

/-- The function `sip::source_path`. -/
def source_path (cf : Conf) : Path := cf.build / ("sip-" ++ version cf)

/-- The function `sip::sip_module_exe`. -/
def sip_module_exe (cf : Conf) : Path := cf.scripts_path / "sip-module.exe"

/-- The function `sip::download_file`. -/
def download_file (cf : Conf) : Path := cf.cache / ("sip-" ++ version cf ++ ".tar.gz")

/-- The pattern `(\d+)\.(\d+)(?:\.(\d+))?` of `sip::module_source_path`. -/
def re : Regex :=
  .seq (.group 1 (.plus .digit))
    (.seq (.lit '.')
      (.seq (.group 2 (.plus .digit))
        (.opt (.ncgroup (.seq (.lit '.') (.group 3 (.plus .digit)))))))

/-- The function `sip::module_source_path`. -/
def module_source_path (cf : Conf) : Except String Path :=
  let s := version_for_pyqt cf
  match regex_match s re with
  | none => .error ("bad pyqt sip version " ++ s)
  | some m =>
    let dir := m.str 1 ++ "." ++ m.str 2
    .ok (source_path cf / "sipbuild" / "module" / "source" / dir)


/-- The function `sip::do_clean`. -/
def do_clean (cf : Conf) (c : clean) : List Event :=
  if is_set c .reextract then
    [.trace .reextract "deleting {}" [source_path cf],
     .delete_directory (source_path cf) .optional]
  else if is_set c .rebuild then
    [.delete_directory (source_path cf / "build") .optional]
  else []

/-- The `pip download` process built in `sip::download`. -/
def download_process (cf : Conf) : process :=
  { (((((((process.new.arg2 "-X" (.str "utf8")).arg2 "-m" (.str "pip")).arg
      "download").arg "--no-binary=:all:").arg "--no-deps").arg2 "-d" (.path cf.cache)).arg
      ("sip==" ++ version cf)) with
    binary := cf.python_exe
    chcp := some 65001
    stdout_encoding := some .utf8
    stderr_encoding := some .utf8
    env := some ((env.mk .this_env []).set "PYTHONUTF8" "1") }

/-- The function `sip::download`; `fs_exists` is `fs::exists` at the time of
the call. -/
def download (cf : Conf) (fs_exists : Path → Bool) : List Event :=
  if fs_exists (download_file cf) then
    if cf.redownload then
      [.trace .redownload "deleting {}" [download_file cf],
       .delete_file (download_file cf) .optional,
       .run_tool (download_process cf)]
    else
      [.trace .bypass "sip: {} already exists" [download_file cf]]
  else
    [.run_tool (download_process cf)]

/-- The lambda given to `stderr_filter` in `sip::generate`. -/
def generate_stderr_filter (f : filter) : filter :=
  if (string_find "zip_safe flag not set".data f.line.data 0).isSome then
    { f with lv := .trace }
  else if (string_find "module references __file__".data f.line.data 0).isSome then
    { f with lv := .trace }
  else f

/-- The `setup.py install` process built in `sip::generate`. -/
def setup_process (cf : Conf) : process :=
  { (((process.new.arg2 "-X" (.str "utf8")).arg "setup.py").arg "install") with
    binary := cf.python_exe
    chcp := some 65001
    stdout_encoding := some .utf8
    stderr_encoding := some .utf8
    stderr_filter := some generate_stderr_filter
    cwd := source_path cf
    env := some ((env.mk .this_env []).set "PYTHONUTF8" "1") }

/-- The `sip-module.exe` process built in `sip::generate`. -/
def sip_module_process (cf : Conf) : process :=
  { ((process.new.arg "--sip-h").arg "PyQt5.zip") with
    binary := sip_module_exe cf
    chcp := some 850
    stdout_encoding := some .acp
    stderr_encoding := some .acp
    cwd := source_path cf }

/-- The part of `sip::generate` after the marker test. `fs_after` is
`fs::exists` once `setup.py` has run, `utf8` the text `op::read_text_file`
returns. -/
def generate_steps (cf : Conf) (fs_after : Path → Bool) (utf8 : String) : List Event :=
  let filename := "sip-module-script.py"
  let src := cf.scripts_path / filename
  let backup := cf.scripts_path / (filename ++ ".bak")
  let dest := cf.scripts_path / (filename ++ ".acp")
  [.run_tool (setup_process cf)] ++
  (if !fs_after backup then
    [.read_text_file .utf8 src, .write_text_file .acp dest utf8, .swap_files src dest backup]
   else []) ++
  [.run_tool (sip_module_process cf)]

/-- The function `sip::generate`; `fs_exists` is `fs::exists` at the time of
the call. -/
def generate (cf : Conf) (fs_exists fs_after : Path → Bool) (utf8 : String) : List Event :=
  let header := source_path cf / "sip.h"
  if fs_exists header then
    if cf.rebuild then
      [.trace .rebuild "ignoring {}" [header]] ++ generate_steps cf fs_after utf8
    else
      [.trace .bypass "{} already exists" [header]]
  else
    generate_steps cf fs_after utf8

end sip

/-! ## `cmake.cpp` -/

namespace cmake

/-- The enum `cmake::generators`. -/
inductive generators where
  | vs | jom
deriving DecidableEq, Repr

/-- The struct `cmake::gen_info`. -/
structure gen_info where
  dir : String
  name : String
  x86 : String
  x64 : String
deriving DecidableEq, Repr

/-- The function `cmake::gen_info::get_arch`. The `default:` branch is for
values outside the enum, which the type `arch` does not have. -/
def gen_info.get_arch (g : gen_info) : arch → String
  | .x86 => if g.x86.isEmpty then "" else "-A " ++ g.x86
  | .x64 => if g.x64.isEmpty then "" else "-A " ++ g.x64
  | .dont_care => ""

/-- The function `cmake::gen_info::output_dir`. -/
def gen_info.output_dir (g : gen_info) : arch → String
  | .x86 => g.dir ++ "_32"
  | .x64 => g.dir
  | .dont_care => g.dir

/-- The values `vs::version()` and `vs::year()`, read from outside. -/
structure VsInfo where
  version : String
  year : String

/-- The function `cmake::all_generators`: the catalogue, in source order. -/
def all_generators (v : VsInfo) : List (generators × gen_info) :=
  [(.jom, ⟨"build", "NMake Makefiles JOM", "", ""⟩),
   (.vs, ⟨"vsbuild", "Visual Studio " ++ v.version ++ " " ++ v.year, "Win32", "x64"⟩)]

/-- The function `cmake::get_generator`. -/
def get_generator (v : VsInfo) (g : generators) : Except String gen_info :=
  match (all_generators v).lookup g with
  | none => .error "unknown generator"
  | some i => .ok i

/-- The function `cmake::clean`. -/
def clean (v : VsInfo) (root : Path) : List Event :=
  [.trace .rebuild "deleting all generator directories" []] ++
  (all_generators v).flatMap fun kg =>
    [.delete_directory (root / kg.2.output_dir .x86) .optional,
     .delete_directory (root / kg.2.output_dir .x64) .optional]

end cmake

/-- The class `cmake`: its data members. -/
structure Cmake where
  process_ : process
  gen_ : cmake.generators
  genstring_ : String
  root_ : Path
  output_ : Path
  prefix_ : Path
  arch_ : arch
  cmd_ : String

namespace cmake

/-- The constructor `cmake::cmake()`: the JOM generator and the default
architecture `arch::def`; `binary` is `conf::tool_by_name("cmake")`. -/
def new (binary : Path) (arch_def : arch) : Cmake :=
  ⟨{ process.new with binary := binary }, .jom, "", ⟨[]⟩, ⟨[]⟩, ⟨[]⟩, arch_def, ""⟩

/-- The method `cmake::generator(generators)`. -/
def generator (c : Cmake) (g : generators) : Cmake := { c with gen_ := g }

/-- The method `cmake::generator(const std::string&)` (the overload on strings). -/
def generator_string (c : Cmake) (g : String) : Cmake := { c with genstring_ := g }

/-- The method `cmake::root`. -/
def root (c : Cmake) (p : Path) : Cmake := { c with root_ := p }

/-- The method `cmake::output`. -/
def output (c : Cmake) (p : Path) : Cmake := { c with output_ := p }

/-- The method `cmake::prefix` (renamed: the source name is reserved in Lean). -/
def set_prefix (c : Cmake) (p : Path) : Cmake := { c with prefix_ := p }

/-- The method `cmake::def(name, value)` (renamed: `def` is a keyword). -/
def define (c : Cmake) (name value : String) : Cmake :=
  { c with process_ := c.process_.arg ("-D" ++ name ++ "=" ++ value ++ "") }

/-- The method `cmake::architecture`. -/
def architecture (c : Cmake) (a : arch) : Cmake := { c with arch_ := a }

/-- The method `cmake::cmd`. -/
def cmd (c : Cmake) (s : String) : Cmake := { c with cmd_ := s }

/-- The method `cmake::result`. -/
def result (c : Cmake) : Path := c.output_

/-- The generator arguments `do_run` appends. -/
def generator_args (c : Cmake) (g : gen_info) (p : process) : process :=
  if c.genstring_.isEmpty then
    (p.arg2 "-G" (.str ("\"" ++ g.name ++ "\""))).arg (g.get_arch c.arch_)
  else
    p.arg2 "-G" (.str ("\"" ++ c.genstring_ ++ "\""))

/-- The method `cmake::do_run`: the object as it stands when
`execute_and_join()` is called, with `process_` fully configured. -/
def do_run (v : VsInfo) (c : Cmake) : Except String Cmake :=
  if c.root_.empty then .error "cmake output path is empty"
  else
    match get_generator v c.gen_ with
    | .error e => .error e
    | .ok g =>
      let output_ := if c.output_.empty then c.root_ / g.output_dir c.arch_ else c.output_
      let p := { c.process_ with
        stdout_encoding := some .utf8
        stderr_encoding := some .utf8 }
      let p := (((p.arg "-DCMAKE_BUILD_TYPE=Release").arg_f
        "-DCMAKE_INSTALL_MESSAGE=NEVER" .log_quiet).arg2_f
        "--log-level" (.str "WARNING") .log_quiet).arg "--no-warn-unused-cli"
      let p := generator_args c g p
      let p := if !c.prefix_.empty then
          p.arg2_f "-DCMAKE_INSTALL_PREFIX=" (.path c.prefix_) .nospace
        else p
      let p := if c.cmd_.isEmpty then p.arg ".." else p.arg c.cmd_
      let p := { p with
        env := some ((env.mk (.vs c.arch_) []).set "CXXFLAGS" "/wd4566")
        cwd := output_ }
      .ok { c with output_ := output_, process_ := p }

end cmake

/-! ## The version grammar of the specification -/

/-- A non-empty run of decimal digits. -/
def isDigits (a : String) : Bool := !a.data.isEmpty && a.data.all Char.isDigit

/-- A non-empty list of decimal digits. -/
def DigitRun (a : List Char) : Prop := a ≠ [] ∧ ∀ c ∈ a, c.isDigit = true

/-- The version grammar in the words of the specification: `MAJOR.MINOR` or
`MAJOR.MINOR.PATCH`, each component a non-empty run of decimal digits. -/
def IsVersion (s : String) : Prop :=
  ∃ a b : String, isDigits a = true ∧ isDigits b = true ∧
    (s = a ++ "." ++ b ∨ ∃ c : String, isDigits c = true ∧ s = a ++ "." ++ b ++ "." ++ c)

/-- The two shapes of a version, on character lists. -/
def VersionShape (a b s : List Char) : Prop :=
  s = a ++ '.' :: b ∨ ∃ c, DigitRun c ∧ s = a ++ '.' :: (b ++ '.' :: c)

/-! ## Sample inputs -/

/-- A configuration with pyqt-sip version `v`. -/
def sample_conf (v : String) : Conf :=
  ⟨"4.19.22", v, ⟨["build"]⟩, ⟨["cache"]⟩, ⟨["python.exe"]⟩, ⟨["Scripts"]⟩, ⟨["include"]⟩,
    false, false⟩

/-- Visual Studio 16 2019. -/
def sample_vs : cmake.VsInfo := ⟨"16", "2019"⟩

/-- A `cmake` object with root `src`, the IDE generator and a 32-bit target. -/
def sample_cmake : Cmake := ⟨process.new, .vs, "", ⟨["src"]⟩, ⟨[]⟩, ⟨[]⟩, .x86, ""⟩

/-! # Theorems -/

theorem run_seq (a b : Regex) (caps : Captures) (s : List Char) :
    (Regex.seq a b).run caps s = (a.run caps s).flatMap fun m =>
      (b.run m.caps m.rest).map fun m' => { m' with text := m.text ++ m'.text } := rfl

theorem run_plus (r : Regex) (caps : Captures) (s : List Char) :
    (Regex.plus r).run caps s = plusLoop r.run (s.length + 1) caps s := rfl

theorem run_opt (r : Regex) (caps : Captures) (s : List Char) :
    (Regex.opt r).run caps s = r.run caps s ++ [⟨[], caps, s⟩] := rfl

theorem run_group (i : Nat) (r : Regex) (caps : Captures) (s : List Char) :
    (Regex.group i r).run caps s =
      (r.run caps s).map fun m => { m with caps := m.caps.set i m.text } := rfl

theorem run_ncgroup (r : Regex) (caps : Captures) (s : List Char) :
    (Regex.ncgroup r).run caps s = r.run caps s := rfl

theorem mem_run_lit (c : Char) (caps : Captures) (s : List Char) (m : Match) :
    m ∈ (Regex.lit c).run caps s ↔ m.text = [c] ∧ s = c :: m.rest ∧ m.caps = caps := by
  cases s with
  | nil => simp [Regex.run]
  | cons x xs =>
    by_cases h : x = c
    · subst h
      simp only [Regex.run, if_true, List.mem_singleton]
      constructor
      · rintro rfl; simp
      · rintro ⟨h1, h2, h3⟩
        apply Match.ext <;> simp_all
    · simp only [Regex.run, h, if_false, List.not_mem_nil, false_iff]
      rintro ⟨-, h2, -⟩
      exact h (List.cons.inj h2).1

theorem mem_run_digit (caps : Captures) (s : List Char) (m : Match) :
    m ∈ Regex.digit.run caps s ↔
      ∃ x, x.isDigit = true ∧ m.text = [x] ∧ s = x :: m.rest ∧ m.caps = caps := by
  cases s with
  | nil => simp [Regex.run]
  | cons x xs =>
    by_cases h : x.isDigit = true
    · simp only [Regex.run, h, if_true, List.mem_singleton]
      constructor
      · rintro rfl; exact ⟨x, h, rfl, rfl, rfl⟩
      · rintro ⟨y, -, h1, h2, h3⟩
        apply Match.ext <;> simp_all
    · have h' : x.isDigit = false := by simpa using h
      simp only [Regex.run, h', Bool.false_eq_true, if_false, List.not_mem_nil, false_iff]
      rintro ⟨y, hy, -, h2, -⟩
      exact h ((List.cons.inj h2).1 ▸ hy)

theorem mem_plusLoop_digit (n : Nat) (caps : Captures) (s : List Char) (m : Match) :
    m ∈ plusLoop Regex.digit.run n caps s ↔
      m.text ≠ [] ∧ (∀ c ∈ m.text, c.isDigit = true) ∧ m.text.length ≤ n ∧
        s = m.text ++ m.rest ∧ m.caps = caps := by
  induction n generalizing s m with
  | zero =>
    simp only [plusLoop, List.not_mem_nil, false_iff]
    rintro ⟨h1, -, h3, -⟩
    exact h1 (List.length_eq_zero.mp (Nat.le_zero.mp h3))
  | succ n ih =>
    simp only [plusLoop, List.mem_flatMap, mem_run_digit, List.mem_append, List.mem_singleton]
    constructor
    · rintro ⟨a, ⟨x, hx, h1, h2, h3⟩, hm | rfl⟩
      · rw [if_neg (by simp [h1])] at hm
        obtain ⟨m', hm', rfl⟩ := List.mem_map.mp hm
        rw [h3] at hm'
        obtain ⟨g1, g2, g3, g4, g5⟩ := (ih _ _).mp hm'
        simp_all
      · simp_all
    · rintro ⟨h1, h2, h3, h4, h5⟩
      rcases hm : m.text with _ | ⟨y, ys⟩
      · exact absurd hm h1
      · rw [hm] at h2 h3 h4
        refine ⟨⟨[y], caps, ys ++ m.rest⟩, ⟨y, h2 y (List.mem_cons_self _ _), rfl, h4, rfl⟩, ?_⟩
        by_cases hys : ys = []
        · right
          apply Match.ext <;> simp_all
        · left
          rw [if_neg (by simp)]
          refine List.mem_map.mpr ⟨⟨ys, caps, m.rest⟩, (ih _ _).mpr ⟨hys, ?_, ?_, rfl, rfl⟩, ?_⟩
          · intro c hc; exact h2 c (List.mem_cons_of_mem _ hc)
          · simpa using h3
          · apply Match.ext <;> simp_all

theorem mem_run_digits_group (i : Nat) (caps : Captures) (s : List Char) (m : Match) :
    m ∈ (Regex.group i (.plus .digit)).run caps s ↔
      m.text ≠ [] ∧ (∀ c ∈ m.text, c.isDigit = true) ∧ s = m.text ++ m.rest ∧
        m.caps = caps.set i m.text := by
  simp only [run_group, run_plus, List.mem_map, mem_plusLoop_digit]
  constructor
  · rintro ⟨m', ⟨h1, h2, h3, h4, h5⟩, rfl⟩
    simp_all
  · rintro ⟨h1, h2, h3, h4⟩
    refine ⟨⟨m.text, caps, m.rest⟩, ⟨h1, h2, ?_, h3, rfl⟩, ?_⟩
    · have := congrArg List.length h3
      simp only [List.length_append] at this
      show m.text.length ≤ s.length + 1
      omega
    · apply Match.ext <;> simp_all

theorem isDigits_iff (a : String) : isDigits a = true ↔ DigitRun a.data := by
  simp [isDigits, DigitRun, List.isEmpty_iff]

theorem mem_run_re (caps : Captures) (s : List Char) (m : Match) :
    m ∈ sip.re.run caps s ↔
      ∃ a b, DigitRun a ∧ DigitRun b ∧ s = m.text ++ m.rest ∧
        ((m.text = a ++ '.' :: b ∧ m.caps = (caps.set 1 a).set 2 b) ∨
          ∃ c, DigitRun c ∧ m.text = a ++ '.' :: (b ++ '.' :: c) ∧
            m.caps = ((caps.set 1 a).set 2 b).set 3 c) := by
  simp only [sip.re, run_seq, run_opt, run_ncgroup, List.mem_flatMap, List.mem_map,
    List.mem_append, List.mem_singleton, mem_run_digits_group, mem_run_lit, DigitRun]
  constructor
  · rintro ⟨m1, ⟨a1, a2, a3, a4⟩, m2, ⟨m3, ⟨b1, b2, b3⟩, m4, ⟨m5, ⟨c1, c2, c3, c4⟩,
      m6, h6, rfl⟩, rfl⟩, rfl⟩
    refine ⟨m1.text, m5.text, ⟨a1, a2⟩, ⟨c1, c2⟩, ?_, ?_⟩
    · rcases h6 with ⟨m7, ⟨d1, d2, d3⟩, m8, ⟨e1, e2, e3, e4⟩, rfl⟩ | rfl
      · simp_all
      · simp_all
    · rcases h6 with ⟨m7, ⟨d1, d2, d3⟩, m8, ⟨e1, e2, e3, e4⟩, rfl⟩ | rfl
      · right
        exact ⟨m8.text, ⟨e1, e2⟩, by simp_all, by simp_all⟩
      · left
        simp_all
  · rintro ⟨a, b, ⟨a1, a2⟩, ⟨b1, b2⟩, hs, ⟨ht, hc⟩ | ⟨c, ⟨c1, c2⟩, ht, hc⟩⟩
    · refine ⟨⟨a, caps.set 1 a, '.' :: b ++ m.rest⟩, ⟨a1, a2, by simp [hs, ht], rfl⟩,
        ⟨'.' :: b, (caps.set 1 a).set 2 b, m.rest⟩,
        ⟨⟨['.'], caps.set 1 a, b ++ m.rest⟩, ⟨rfl, rfl, rfl⟩,
          ⟨b, (caps.set 1 a).set 2 b, m.rest⟩,
          ⟨⟨b, (caps.set 1 a).set 2 b, m.rest⟩, ⟨b1, b2, rfl, rfl⟩,
            ⟨[], (caps.set 1 a).set 2 b, m.rest⟩, Or.inr rfl, by simp⟩, rfl⟩, ?_⟩
      apply Match.ext <;> simp_all
    · refine ⟨⟨a, caps.set 1 a, '.' :: (b ++ '.' :: c) ++ m.rest⟩,
        ⟨a1, a2, by simp [hs, ht], rfl⟩,
        ⟨'.' :: (b ++ '.' :: c), ((caps.set 1 a).set 2 b).set 3 c, m.rest⟩,
        ⟨⟨['.'], caps.set 1 a, (b ++ '.' :: c) ++ m.rest⟩, ⟨rfl, rfl, rfl⟩,
          ⟨b ++ '.' :: c, ((caps.set 1 a).set 2 b).set 3 c, m.rest⟩,
          ⟨⟨b, (caps.set 1 a).set 2 b, '.' :: c ++ m.rest⟩, ⟨b1, b2, by simp, rfl⟩,
            ⟨'.' :: c, ((caps.set 1 a).set 2 b).set 3 c, m.rest⟩,
            Or.inl ⟨⟨['.'], (caps.set 1 a).set 2 b, c ++ m.rest⟩, ⟨rfl, rfl, rfl⟩,
              ⟨c, ((caps.set 1 a).set 2 b).set 3 c, m.rest⟩, ⟨c1, c2, rfl, rfl⟩, rfl⟩,
            rfl⟩, rfl⟩, ?_⟩
      apply Match.ext <;> simp_all

theorem dot_not_mem_digits {a : List Char} (ha : ∀ c ∈ a, c.isDigit = true) : '.' ∉ a :=
  fun h => absurd (ha _ h) (by decide)

theorem digit_split_unique {a a' t t' : List Char} (ha : ∀ c ∈ a, c.isDigit = true)
    (ha' : ∀ c ∈ a', c.isDigit = true) (h : a ++ '.' :: t = a' ++ '.' :: t') :
    a = a' ∧ t = t' := by
  induction a generalizing a' with
  | nil =>
    cases a' with
    | nil => simpa using h
    | cons y ys =>
      simp only [List.nil_append, List.cons_append, List.cons.injEq] at h
      exact absurd (h.1 ▸ ha' y (List.mem_cons_self _ _)) (by decide)
  | cons x xs ih =>
    cases a' with
    | nil =>
      simp only [List.nil_append, List.cons_append, List.cons.injEq] at h
      exact absurd (h.1 ▸ ha x (List.mem_cons_self _ _)) (by decide)
    | cons y ys =>
      simp only [List.cons_append, List.cons.injEq] at h
      obtain ⟨rfl, h⟩ := h
      obtain ⟨rfl, rfl⟩ := ih (fun c hc => ha c (List.mem_cons_of_mem _ hc))
        (fun c hc => ha' c (List.mem_cons_of_mem _ hc)) h
      exact ⟨rfl, rfl⟩

theorem versionShape_unique {a b a' b' s : List Char} (ha : DigitRun a) (hb : DigitRun b)
    (ha' : DigitRun a') (hb' : DigitRun b') (h : VersionShape a b s)
    (h' : VersionShape a' b' s) : a = a' ∧ b = b' := by
  rcases h with rfl | ⟨c, hc, rfl⟩ <;> rcases h' with h' | ⟨c', hc', h'⟩
  · exact digit_split_unique ha.2 ha'.2 h'
  · obtain ⟨rfl, h2⟩ := digit_split_unique ha.2 ha'.2 h'
    exact absurd (h2 ▸ List.mem_append_right _ (List.mem_cons_self _ _))
      (dot_not_mem_digits hb.2)
  · obtain ⟨rfl, h2⟩ := digit_split_unique ha.2 ha'.2 h'
    exact absurd (h2 ▸ List.mem_append_right _ (List.mem_cons_self _ _))
      (dot_not_mem_digits hb'.2)
  · obtain ⟨rfl, h2⟩ := digit_split_unique ha.2 ha'.2 h'
    exact ⟨rfl, (digit_split_unique hb.2 hb'.2 h2).1⟩

theorem regex_match_re_of_shape {s : String} {a b : List Char} (ha : DigitRun a)
    (hb : DigitRun b) (h : VersionShape a b s.data) :
    ∃ m, regex_match s sip.re = some m ∧ m 1 = some a ∧ m 2 = some b := by
  unfold regex_match
  cases hf : (sip.re.run (fun _ => none) s.data).find? fun m => m.rest.isEmpty with
  | none =>
    exfalso
    rw [List.find?_eq_none] at hf
    rcases h with h | ⟨c, hc, h⟩
    · exact hf ⟨a ++ '.' :: b, (Captures.set (fun _ => none) 1 a).set 2 b, []⟩
        ((mem_run_re _ _ _).mpr ⟨a, b, ha, hb, by simp [h], Or.inl ⟨rfl, rfl⟩⟩) rfl
    · exact hf ⟨a ++ '.' :: (b ++ '.' :: c),
        ((Captures.set (fun _ => none) 1 a).set 2 b).set 3 c, []⟩
        ((mem_run_re _ _ _).mpr ⟨a, b, ha, hb, by simp [h], Or.inr ⟨c, hc, rfl, rfl⟩⟩) rfl
  | some m =>
    have hrest : m.rest = [] := by simpa using List.find?_some hf
    obtain ⟨a', b', ha', hb', hs, hm⟩ := (mem_run_re _ _ _).mp (List.mem_of_find?_eq_some hf)
    rw [hrest, List.append_nil] at hs
    refine ⟨_, rfl, ?_⟩
    rcases hm with ⟨ht, hc⟩ | ⟨c', hc', ht, hc⟩
    · obtain ⟨rfl, rfl⟩ := versionShape_unique ha hb ha' hb' h (Or.inl (hs.trans ht))
      simp [hc, Captures.set]
    · obtain ⟨rfl, rfl⟩ := versionShape_unique ha hb ha' hb' h
        (Or.inr ⟨c', hc', hs.trans ht⟩)
      simp [hc, Captures.set]

theorem shape_of_regex_match_re {s : String} {m : Captures}
    (h : regex_match s sip.re = some m) :
    ∃ a b, DigitRun a ∧ DigitRun b ∧ VersionShape a b s.data := by
  unfold regex_match at h
  cases hf : (sip.re.run (fun _ => none) s.data).find? fun m => m.rest.isEmpty with
  | none => simp [hf] at h
  | some m0 =>
    have hrest : m0.rest = [] := by simpa using List.find?_some hf
    obtain ⟨a, b, ha, hb, hs, hm⟩ := (mem_run_re _ _ _).mp (List.mem_of_find?_eq_some hf)
    rw [hrest, List.append_nil] at hs
    refine ⟨a, b, ha, hb, ?_⟩
    rcases hm with ⟨ht, -⟩ | ⟨c, hc, ht, -⟩
    · exact Or.inl (hs.trans ht)
    · exact Or.inr ⟨c, hc, hs.trans ht⟩

theorem isVersion_iff_shape (s : String) :
    IsVersion s ↔ ∃ a b, DigitRun a ∧ DigitRun b ∧ VersionShape a b s.data := by
  constructor
  · rintro ⟨a, b, ha, hb, rfl | ⟨c, hc, rfl⟩⟩
    · exact ⟨a.data, b.data, (isDigits_iff a).mp ha, (isDigits_iff b).mp hb,
        Or.inl (by simp [String.data_append])⟩
    · exact ⟨a.data, b.data, (isDigits_iff a).mp ha, (isDigits_iff b).mp hb,
        Or.inr ⟨c.data, (isDigits_iff c).mp hc, by simp [String.data_append]⟩⟩
  · rintro ⟨a, b, ha, hb, h | ⟨c, hc, h⟩⟩
    · refine ⟨⟨a⟩, ⟨b⟩, (isDigits_iff _).mpr ha, (isDigits_iff _).mpr hb, Or.inl ?_⟩
      apply String.ext
      simp [String.data_append, h]
    · refine ⟨⟨a⟩, ⟨b⟩, (isDigits_iff _).mpr ha, (isDigits_iff _).mpr hb,
        Or.inr ⟨⟨c⟩, (isDigits_iff _).mpr hc, ?_⟩⟩
      apply String.ext
      simp [String.data_append, h]

/-- Claim C1: for a pyqt-sip version `a.b` or `a.b.c`, each component a non-empty
run of decimal digits, `sip::module_source_path` succeeds and returns
`source_path()/sipbuild/module/source/a.b`: major and minor are copied as they
are and the patch component is discarded. -/
theorem module_source_path_version (cf : Conf) (a b : String)
    (ha : isDigits a = true) (hb : isDigits b = true)
    (hv : cf.pyqt_sip_version = a ++ "." ++ b ∨
      ∃ c : String, isDigits c = true ∧ cf.pyqt_sip_version = a ++ "." ++ b ++ "." ++ c) :
    sip.module_source_path cf =
      .ok (sip.source_path cf / "sipbuild" / "module" / "source" / (a ++ "." ++ b)) := by
  have hshape : VersionShape a.data b.data cf.pyqt_sip_version.data := by
    rcases hv with h | ⟨c, hc, h⟩
    · exact Or.inl (by simp [h, String.data_append])
    · exact Or.inr ⟨c.data, (isDigits_iff c).mp hc, by simp [h, String.data_append]⟩
  obtain ⟨m, hm, h1, h2⟩ :=
    regex_match_re_of_shape ((isDigits_iff a).mp ha) ((isDigits_iff b).mp hb) hshape
  simp only [sip.module_source_path, sip.version_for_pyqt, hm, Captures.str, h1, h2,
    Option.getD_some]

/-- The versions `12.7` and `12.7.2` both give the directory fragment `12.7`. -/
theorem module_source_path_version_witness :
    sip.module_source_path (sample_conf "12.7") =
        .ok ⟨["build", "sip-4.19.22", "sipbuild", "module", "source", "12.7"]⟩ ∧
      sip.module_source_path (sample_conf "12.7.2") =
        .ok ⟨["build", "sip-4.19.22", "sipbuild", "module", "source", "12.7"]⟩ :=
  ⟨module_source_path_version (sample_conf "12.7") "12" "7" (by decide) (by decide)
      (Or.inl (by decide)),
    module_source_path_version (sample_conf "12.7.2") "12" "7" (by decide) (by decide)
      (Or.inr ⟨"2", by decide, by decide⟩)⟩

/-- Claim C2: for a pyqt-sip version that is not, as a whole, `digits.digits` or
`digits.digits.digits`, `sip::module_source_path` bails out with the message
`bad pyqt sip version <s>` and returns no path. -/
theorem module_source_path_bad_version (cf : Conf) (h : ¬ IsVersion cf.pyqt_sip_version) :
    sip.module_source_path cf = .error ("bad pyqt sip version " ++ cf.pyqt_sip_version) := by
  cases hm : regex_match cf.pyqt_sip_version sip.re with
  | none => simp only [sip.module_source_path, sip.version_for_pyqt, hm]
  | some m => exact absurd ((isVersion_iff_shape _).mpr (shape_of_regex_match_re hm)) h

theorem not_isVersion_of_no_dot {s : String} (h : '.' ∉ s.data) : ¬ IsVersion s := by
  rintro ⟨a, b, -, -, rfl | ⟨c, -, rfl⟩⟩ <;> simp [String.data_append] at h

/-- The version `abc` is not a version and is rejected. -/
theorem module_source_path_bad_version_witness :
    ¬ IsVersion "abc" ∧
      sip.module_source_path (sample_conf "abc") = .error "bad pyqt sip version abc" :=
  ⟨not_isVersion_of_no_dot (by decide),
    module_source_path_bad_version (sample_conf "abc") (not_isVersion_of_no_dot (by decide))⟩

/-- The strings the claim lists are rejected, each with the fatal message. -/
theorem module_source_path_rejects_examples (cf : Conf) :
    ∀ s ∈ ["abc", "12", "12.", "12.7.", "12.7.2.1", " 12.7", "12.7-beta", "", "."],
      sip.module_source_path { cf with pyqt_sip_version := s } =
        .error ("bad pyqt sip version " ++ s) := by
  intro s hs
  simp only [List.mem_cons, List.mem_singleton, List.not_mem_nil, or_false] at hs
  rcases hs with rfl | rfl | rfl | rfl | rfl | rfl | rfl | rfl | rfl <;> rfl

/-- Claim C3 fails for the 32-bit architecture: the JOM entry of the catalogue
has `output_dir(x86) = "build_32"`, which differs from `output_dir(x64)`. -/
theorem jom_output_dir_x86_counterexample :
    cmake.get_generator sample_vs .jom = .ok ⟨"build", "NMake Makefiles JOM", "", ""⟩ ∧
      cmake.gen_info.output_dir ⟨"build", "NMake Makefiles JOM", "", ""⟩ .x86 = "build_32" ∧
      cmake.gen_info.output_dir ⟨"build", "NMake Makefiles JOM", "", ""⟩ .x86 ≠ "build" ∧
      cmake.gen_info.output_dir ⟨"build", "NMake Makefiles JOM", "", ""⟩ .x86 ≠
        cmake.gen_info.output_dir ⟨"build", "NMake Makefiles JOM", "", ""⟩ .x64 :=
  ⟨rfl, by decide, by decide, by decide⟩

/-- Claim C3, amended: the JOM entry of the catalogue gives `"build"` for `x64`
and for `dont_care`, and `"build_32"` for `x86`. -/
theorem output_dir_jom (v : cmake.VsInfo) :
    ∃ g, cmake.get_generator v .jom = .ok g ∧
      g.output_dir .x64 = "build" ∧ g.output_dir .dont_care = "build" ∧
      g.output_dir .x86 = "build_32" :=
  ⟨⟨"build", "NMake Makefiles JOM", "", ""⟩, rfl, rfl, rfl, by decide⟩

/-- Claim C4: `sip::download`, by the state of the cache and of the
force-redownload flag. File present and flag unset: one bypass trace, no
delete, no process. File present and flag set: the download file is deleted
(optional mode), then one download process is launched, and nothing else is
deleted or launched. File absent: one download process, no delete, whatever
the flag. -/
theorem download_decision (cf : Conf) (fs_exists : Path → Bool) :
    match fs_exists (sip.download_file cf), cf.redownload with
    | true, false =>
      (sip.download cf fs_exists).countP Event.isBypass = 1 ∧
      (sip.download cf fs_exists).countP Event.isDelete = 0 ∧
      (sip.download cf fs_exists).countP Event.isRunTool = 0
    | true, true =>
      (sip.download cf fs_exists).filter (fun e => e.isDelete || e.isRunTool) =
        [.delete_file (sip.download_file cf) .optional, .run_tool (sip.download_process cf)]
    | false, _ =>
      (sip.download cf fs_exists).countP Event.isDelete = 0 ∧
      (sip.download cf fs_exists).filter Event.isRunTool =
        [.run_tool (sip.download_process cf)] := by
  cases h1 : fs_exists (sip.download_file cf) <;> cases h2 : cf.redownload <;>
    simp [sip.download, h1, h2, Event.isBypass, Event.isDelete, Event.isRunTool]

theorem generate_steps_no_delete (cf : Conf) (fs_after : Path → Bool) (utf8 : String) :
    ∀ e ∈ sip.generate_steps cf fs_after utf8, e.isDelete = false := by
  unfold sip.generate_steps
  dsimp only
  split_ifs <;> simp [Event.isDelete]

theorem generate_steps_counts (cf : Conf) (fs_after : Path → Bool) (utf8 : String) :
    (sip.generate_steps cf fs_after utf8).countP Event.isBypass = 0 ∧
      (sip.generate_steps cf fs_after utf8).countP Event.isRunTool = 2 := by
  unfold sip.generate_steps
  dsimp only
  split_ifs <;> simp [Event.isBypass, Event.isRunTool]

theorem generate_steps_rebuild (cf : Conf) (r : Bool) (fs_after : Path → Bool)
    (utf8 : String) :
    sip.generate_steps { cf with rebuild := r } fs_after utf8 =
      sip.generate_steps cf fs_after utf8 := rfl

/-- Claim C5: `sip::generate` never deletes anything. With `sip.h` present and
force-rebuild unset the log is the single bypass trace. With `sip.h` present
and force-rebuild set the log is the `ignoring` trace followed by the log of a
run in which the marker is absent, whatever the flag in that run. With `sip.h`
absent the log does not depend on the flag, holds no bypass trace and launches
the two processes. -/
theorem generate_decision (cf : Conf) (fs_exists fs_after : Path → Bool) (utf8 : String) :
    (∀ e ∈ sip.generate cf fs_exists fs_after utf8, e.isDelete = false) ∧
    match fs_exists (sip.source_path cf / "sip.h"), cf.rebuild with
    | true, false =>
      sip.generate cf fs_exists fs_after utf8 =
        [.trace .bypass "{} already exists" [sip.source_path cf / "sip.h"]]
    | true, true =>
      ∀ r : Bool, sip.generate cf fs_exists fs_after utf8 =
        .trace .rebuild "ignoring {}" [sip.source_path cf / "sip.h"] ::
          sip.generate { cf with rebuild := r }
            (Function.update fs_exists (sip.source_path cf / "sip.h") false) fs_after utf8
    | false, _ =>
      (∀ r : Bool, sip.generate cf fs_exists fs_after utf8 =
        sip.generate { cf with rebuild := r } fs_exists fs_after utf8) ∧
      (sip.generate cf fs_exists fs_after utf8).countP Event.isBypass = 0 ∧
      (sip.generate cf fs_exists fs_after utf8).countP Event.isRunTool = 2 := by
  have hsrc : ∀ r : Bool, sip.source_path { cf with rebuild := r } = sip.source_path cf :=
    fun _ => rfl
  cases h1 : fs_exists (sip.source_path cf / "sip.h") <;> cases h2 : cf.rebuild <;>
    simp only [sip.generate, h1, h2, hsrc, if_true, if_false, Bool.false_eq_true,
      Function.update_same, generate_steps_rebuild, List.singleton_append, List.mem_cons,
      List.mem_singleton, List.not_mem_nil, forall_eq_or_imp, forall_eq, forall_const,
      List.countP_cons, true_and, and_true, or_false, implies_true, if_true_left]
  · exact ⟨generate_steps_no_delete _ _ _, generate_steps_counts _ _ _⟩
  · exact ⟨generate_steps_no_delete _ _ _, generate_steps_counts _ _ _⟩
  · rfl
  · refine ⟨⟨rfl, generate_steps_no_delete _ _ _⟩, fun r => ?_⟩
    have hupd : Function.update fs_exists (sip.source_path cf / "sip.h") false
        (sip.source_path { cf with rebuild := r } / "sip.h") = false :=
      Function.update_same _ _ _
    rw [hupd]
    simp

theorem path_join_ne (p : Path) (s : String) : p / s ≠ p := by
  intro h
  have := congrArg (fun q => q.parts.length) h
  simp [HDiv.hDiv, Path.join] at this

/-- Claim C6: `sip::do_clean`. With re-extract set (rebuild set or not) the only
delete is the optional delete of the source directory; with only rebuild set
the only delete is the optional delete of `source_path()/build`, which is not
the source directory; with neither set nothing is issued. -/
theorem do_clean_decision (cf : Conf) (c : clean) :
    sip.source_path cf / "build" ≠ sip.source_path cf ∧
    match is_set c .reextract, is_set c .rebuild with
    | true, _ =>
      (sip.do_clean cf c).countP Event.isDelete = 1 ∧
      deleted_directories (sip.do_clean cf c) = [(sip.source_path cf, .optional)]
    | false, true =>
      (sip.do_clean cf c).countP Event.isDelete = 1 ∧
      deleted_directories (sip.do_clean cf c) = [(sip.source_path cf / "build", .optional)]
    | false, false => sip.do_clean cf c = [] := by
  refine ⟨path_join_ne _ _, ?_⟩
  cases h1 : is_set c .reextract <;> cases h2 : is_set c .rebuild <;>
    simp [sip.do_clean, h1, h2, Event.isDelete, deleted_directories]

theorem get_generator_ok (v : cmake.VsInfo) (g : cmake.generators) :
    ∃ i, (cmake.all_generators v).lookup g = some i ∧ cmake.get_generator v g = .ok i := by
  cases g
  · exact ⟨_, rfl, rfl⟩
  · exact ⟨_, rfl, rfl⟩

theorem do_run_ok (v : cmake.VsInfo) (c : Cmake) (hroot : c.root_.empty = false) :
    ∃ g c', (cmake.all_generators v).lookup c.gen_ = some g ∧ cmake.do_run v c = .ok c' ∧
      c'.output_ = (if c.output_.empty then c.root_ / g.output_dir c.arch_ else c.output_) ∧
      c'.process_.cwd = c'.output_ ∧
      c'.process_.args = c.process_.args ++
        [⟨"-DCMAKE_BUILD_TYPE=Release", none, .noflags⟩,
         ⟨"-DCMAKE_INSTALL_MESSAGE=NEVER", none, .log_quiet⟩,
         ⟨"--log-level", some (.str "WARNING"), .log_quiet⟩,
         ⟨"--no-warn-unused-cli", none, .noflags⟩] ++
        (if c.genstring_.isEmpty then
          [⟨"-G", some (.str ("\"" ++ g.name ++ "\"")), .noflags⟩,
           ⟨g.get_arch c.arch_, none, .noflags⟩]
         else [⟨"-G", some (.str ("\"" ++ c.genstring_ ++ "\"")), .noflags⟩]) ++
        (if c.prefix_.empty then []
         else [⟨"-DCMAKE_INSTALL_PREFIX=", some (.path c.prefix_), .nospace⟩]) ++
        [⟨if c.cmd_.isEmpty then ".." else c.cmd_, none, .noflags⟩] := by
  obtain ⟨g, hg, hg'⟩ := get_generator_ok v c.gen_
  refine ⟨g, ?_⟩
  simp only [cmake.do_run, hroot, hg', Bool.false_eq_true, if_false]
  refine ⟨_, hg, rfl, rfl, rfl, ?_⟩
  cases h1 : c.genstring_.isEmpty <;> cases h2 : c.prefix_.empty <;>
    cases h3 : c.cmd_.isEmpty <;>
    simp [cmake.generator_args, process.arg, process.arg_f, process.arg2, process.arg2_f,
      h1, h2, h3]

/-- Claim C7: `cmake::do_run` with a non-empty root. After
`generator(s)` with a non-empty free-form string `s`, whatever generator enum
and architecture are then set, the run succeeds and the arguments are the ones
already there, the four standard flags, `-G "s"`, the install prefix if set and
the target: no architecture flag and no catalogue name. With no free-form
string the arguments hold `-G` with the quoted catalogue name of the chosen
generator, directly followed by that entry's architecture flag. The flags are
`-A Win32` and `-A x64` for the IDE generator, empty for `dont_care` and for
every architecture of the JOM generator. -/
theorem do_run_generator_args (v : cmake.VsInfo) (c : Cmake) (hroot : c.root_.empty = false) :
    (∀ s : String, s ≠ "" → ∀ (k : cmake.generators) (a : arch),
      ∃ c', cmake.do_run v
          (cmake.architecture (cmake.generator (cmake.generator_string c s) k) a) = .ok c' ∧
        c'.process_.args = c.process_.args ++
          [⟨"-DCMAKE_BUILD_TYPE=Release", none, .noflags⟩,
           ⟨"-DCMAKE_INSTALL_MESSAGE=NEVER", none, .log_quiet⟩,
           ⟨"--log-level", some (.str "WARNING"), .log_quiet⟩,
           ⟨"--no-warn-unused-cli", none, .noflags⟩,
           ⟨"-G", some (.str ("\"" ++ s ++ "\"")), .noflags⟩] ++
          (if c.prefix_.empty then []
           else [⟨"-DCMAKE_INSTALL_PREFIX=", some (.path c.prefix_), .nospace⟩]) ++
          [⟨if c.cmd_.isEmpty then ".." else c.cmd_, none, .noflags⟩]) ∧
    (c.genstring_ = "" →
      ∃ g c', (cmake.all_generators v).lookup c.gen_ = some g ∧ cmake.do_run v c = .ok c' ∧
        c'.process_.args = c.process_.args ++
          [⟨"-DCMAKE_BUILD_TYPE=Release", none, .noflags⟩,
           ⟨"-DCMAKE_INSTALL_MESSAGE=NEVER", none, .log_quiet⟩,
           ⟨"--log-level", some (.str "WARNING"), .log_quiet⟩,
           ⟨"--no-warn-unused-cli", none, .noflags⟩,
           ⟨"-G", some (.str ("\"" ++ g.name ++ "\"")), .noflags⟩,
           ⟨g.get_arch c.arch_, none, .noflags⟩] ++
          (if c.prefix_.empty then []
           else [⟨"-DCMAKE_INSTALL_PREFIX=", some (.path c.prefix_), .nospace⟩]) ++
          [⟨if c.cmd_.isEmpty then ".." else c.cmd_, none, .noflags⟩]) ∧
    (∃ gj gv, (cmake.all_generators v).lookup .jom = some gj ∧
      (cmake.all_generators v).lookup .vs = some gv ∧
      gv.get_arch .x86 = "-A Win32" ∧ gv.get_arch .x64 = "-A x64" ∧
      gv.get_arch .dont_care = "" ∧ ∀ a, gj.get_arch a = "") := by
  refine ⟨fun s hs k a => ?_, fun hgs => ?_, ⟨_, _, rfl, rfl, ?_, ?_, rfl, ?_⟩⟩
  · obtain ⟨g, c', -, hrun, -, -, hargs⟩ :=
      do_run_ok v (cmake.architecture (cmake.generator (cmake.generator_string c s) k) a) hroot
    refine ⟨c', hrun, ?_⟩
    have hne : s.isEmpty = false := by
      cases h : s.isEmpty
      · rfl
      · exact absurd ((String.isEmpty_iff s).mp h) hs
    rw [hargs]
    simp [cmake.architecture, cmake.generator, cmake.generator_string, hne]
  · obtain ⟨g, c', hg, hrun, -, -, hargs⟩ := do_run_ok v c hroot
    refine ⟨g, c', hg, hrun, ?_⟩
    have he : c.genstring_.isEmpty = true := by rw [hgs]; rfl
    rw [hargs, he]
    simp
  · show (if "Win32".isEmpty then "" else "-A " ++ "Win32") = "-A Win32"
    decide
  · show (if "x64".isEmpty then "" else "-A " ++ "x64") = "-A x64"
    decide
  · intro a
    cases a <;> rfl

/-- With the free-form generator `Ninja` the sample object is run with `-G "Ninja"`
and no architecture flag, although the IDE generator and `x86` are set. -/
theorem do_run_generator_args_witness :
    sample_cmake.root_.empty = false ∧
    ∃ c', cmake.do_run sample_vs
        (cmake.architecture (cmake.generator (cmake.generator_string sample_cmake "Ninja")
          .vs) .x86) = .ok c' ∧
      c'.process_.args =
        [⟨"-DCMAKE_BUILD_TYPE=Release", none, .noflags⟩,
         ⟨"-DCMAKE_INSTALL_MESSAGE=NEVER", none, .log_quiet⟩,
         ⟨"--log-level", some (.str "WARNING"), .log_quiet⟩,
         ⟨"--no-warn-unused-cli", none, .noflags⟩,
         ⟨"-G", some (.str "\"Ninja\""), .noflags⟩,
         ⟨"..", none, .noflags⟩] :=
  ⟨rfl, (do_run_generator_args sample_vs sample_cmake rfl).1 "Ninja" (by decide) .vs .x86⟩

/-- Claim C8: `cmake::do_run` with a non-empty root succeeds, the working
directory of the process and `result()` afterwards are the same path, and that
path is the output path when one was set, otherwise
`root / G.output_dir(architecture)` for the catalogue entry `G` of the chosen
generator. -/
theorem do_run_output (v : cmake.VsInfo) (c : Cmake) (hroot : c.root_.empty = false) :
    ∃ g c', (cmake.all_generators v).lookup c.gen_ = some g ∧ cmake.do_run v c = .ok c' ∧
      c'.process_.cwd = cmake.result c' ∧
      cmake.result c' =
        if c.output_.empty then c.root_ / g.output_dir c.arch_ else c.output_ := by
  obtain ⟨g, c', hg, hrun, hout, hcwd, -⟩ := do_run_ok v c hroot
  exact ⟨g, c', hg, hrun, hcwd, hout⟩

/-- The sample object, which has no output path set, runs in `src/vsbuild_32`. -/
theorem do_run_output_witness :
    sample_cmake.root_.empty = false ∧
    ∃ g c', (cmake.all_generators sample_vs).lookup sample_cmake.gen_ = some g ∧
      cmake.do_run sample_vs sample_cmake = .ok c' ∧
      c'.process_.cwd = cmake.result c' ∧
      cmake.result c' =
        if sample_cmake.output_.empty then sample_cmake.root_ / g.output_dir sample_cmake.arch_
        else sample_cmake.output_ :=
  ⟨rfl, do_run_output sample_vs sample_cmake rfl⟩

/-- An empty string given to `generator(const std::string&)` counts as no string:
the catalogue name of the chosen generator is used. -/
theorem do_run_empty_generator_string (v : cmake.VsInfo) (c : Cmake)
    (hroot : c.root_.empty = false) :
    ∃ g c', (cmake.all_generators v).lookup c.gen_ = some g ∧
      cmake.do_run v (cmake.generator_string c "") = .ok c' ∧
      ⟨"-G", some (.str ("\"" ++ g.name ++ "\"")), .noflags⟩ ∈ c'.process_.args := by
  obtain ⟨g, c', hg, hrun, -, -, hargs⟩ := do_run_ok v (cmake.generator_string c "") hroot
  refine ⟨g, c', hg, hrun, ?_⟩
  have he : "".isEmpty = true := rfl
  rw [hargs]
  simp [cmake.generator_string, he]

/-- A freshly constructed `cmake` object has no free-form generator string and no
output path. -/
theorem new_unset (binary : Path) (a : arch) :
    (cmake.new binary a).genstring_ = "" ∧ (cmake.new binary a).output_.empty = true ∧
      (cmake.new binary a).gen_ = .jom :=
  ⟨rfl, rfl, rfl⟩

theorem lookup_jom (v : cmake.VsInfo) :
    (cmake.all_generators v).lookup .jom = some ⟨"build", "NMake Makefiles JOM", "", ""⟩ := rfl

theorem lookup_vs (v : cmake.VsInfo) :
    (cmake.all_generators v).lookup .vs =
      some ⟨"vsbuild", "Visual Studio " ++ v.version ++ " " ++ v.year, "Win32", "x64"⟩ := rfl

/-- Claim C9: the directories `cmake::clean(root)` deletes are exactly
`root / g.output_dir(a)` for `g` in the catalogue and `a` one of `x86`, `x64`,
each in optional mode; it deletes nothing else; and the default output
directory of every `do_run` under `root` is among them. -/
theorem clean_deletes (v : cmake.VsInfo) (root : Path) :
    (∀ p f, (p, f) ∈ deleted_directories (cmake.clean v root) ↔
      f = .optional ∧ ∃ kg ∈ cmake.all_generators v, ∃ a ∈ [arch.x86, arch.x64],
        p = root / kg.2.output_dir a) ∧
    (cmake.clean v root).countP Event.isDelete =
      (deleted_directories (cmake.clean v root)).length ∧
    (∀ c : Cmake, c.root_ = root → c.root_.empty = false → c.output_.empty = true →
      ∃ c', cmake.do_run v c = .ok c' ∧
        (cmake.result c', op_flags.optional) ∈ deleted_directories (cmake.clean v root)) := by
  have hdel : deleted_directories (cmake.clean v root) =
      [(root / ("build" ++ "_32"), .optional), (root / "build", .optional),
       (root / ("vsbuild" ++ "_32"), .optional), (root / "vsbuild", .optional)] := rfl
  refine ⟨fun p f => ?_, ?_, ?_⟩
  · rw [hdel]
    simp only [cmake.all_generators, List.mem_cons, List.mem_singleton, List.not_mem_nil,
      or_false, Prod.mk.injEq, exists_eq_or_imp, exists_eq_left, cmake.gen_info.output_dir]
    constructor
    · rintro (⟨rfl, rfl⟩ | ⟨rfl, rfl⟩ | ⟨rfl, rfl⟩ | ⟨rfl, rfl⟩) <;> simp
    · rintro ⟨rfl, (h | h) | h | h⟩ <;> simp [h]
  · rw [hdel]
    simp [cmake.clean, cmake.all_generators, Event.isDelete]
  · intro c hr hroot hout
    obtain ⟨g, c', hg, hrun, hres, -, -⟩ := do_run_ok v c hroot
    refine ⟨c', hrun, ?_⟩
    rw [hdel]
    show (c'.output_, op_flags.optional) ∈ _
    rw [hres, hout, hr]
    cases hk : c.gen_ <;> rw [hk] at hg
    · obtain rfl : _ = g := Option.some.inj ((lookup_vs v).symm.trans hg)
      cases c.arch_ <;> simp [cmake.gen_info.output_dir]
    · obtain rfl : _ = g := Option.some.inj ((lookup_jom v).symm.trans hg)
      cases c.arch_ <;> simp [cmake.gen_info.output_dir]

theorem string_find_isSome_iff (needle s : List Char) (i : Nat) :
    (string_find needle s i).isSome = true ↔ needle <:+: s := by
  induction s generalizing i with
  | nil =>
    by_cases h : needle.isPrefixOf [] = true
    · simp only [string_find, h, if_true, Option.isSome_some, true_iff]
      exact (List.isPrefixOf_iff_prefix.mp h).isInfix
    · simp only [string_find, h, if_false, Option.isSome_none, Bool.false_eq_true, false_iff]
      intro hi
      exact h (List.isPrefixOf_iff_prefix.mpr (by rw [List.infix_nil.mp hi]))
  | cons c cs ih =>
    by_cases h : needle.isPrefixOf (c :: cs) = true
    · simp only [string_find, h, if_true, Option.isSome_some, true_iff]
      exact (List.isPrefixOf_iff_prefix.mp h).isInfix
    · have h' : needle.isPrefixOf (c :: cs) = false := Bool.eq_false_iff.mpr h
      simp only [string_find, h', Bool.false_eq_true, if_false, ih, List.infix_cons_iff]
      constructor
      · exact Or.inr
      · rintro (hp | hi)
        · exact absurd (List.isPrefixOf_iff_prefix.mpr hp) h
        · exact hi

/-- Claim C10: the stderr filter of the `setup.py` step in `sip::generate` leaves
the line and the drop flag as they are; the severity becomes `trace` when the
line contains `zip_safe flag not set` or `module references __file__`, and is
the incoming severity otherwise. So the result is `trace` exactly when one of
the two substrings occurs or the incoming severity was `trace`. -/
theorem generate_stderr_filter_severity_only (cf : Conf) :
    (sip.generate cf (fun _ => false) (fun _ => true) "").head? =
      some (.run_tool (sip.setup_process cf)) ∧
    ∃ flt, (sip.setup_process cf).stderr_filter = some flt ∧
      ∀ f : filter, (flt f).line = f.line ∧ (flt f).ignore = f.ignore ∧
        ((("zip_safe flag not set".data <:+: f.line.data ∨
            "module references __file__".data <:+: f.line.data) ∧ (flt f).lv = .trace) ∨
          (¬ ("zip_safe flag not set".data <:+: f.line.data ∨
            "module references __file__".data <:+: f.line.data) ∧ (flt f).lv = f.lv)) ∧
        ((flt f).lv = .trace ↔
          ("zip_safe flag not set".data <:+: f.line.data ∨
            "module references __file__".data <:+: f.line.data ∨ f.lv = .trace)) := by
  refine ⟨rfl, sip.generate_stderr_filter, rfl, fun f => ?_⟩
  unfold sip.generate_stderr_filter
  simp only [string_find_isSome_iff]
  by_cases h1 : "zip_safe flag not set".data <:+: f.line.data
  · simp [h1]
  · by_cases h2 : "module references __file__".data <:+: f.line.data
    · simp [h1, h2]
    · simp [h1, h2]

end mob
